import Mathlib

/-!
# ebitengine-game-template: a model of `main.go`

The program is one Go file: a sprite-sheet frame selector
(`getFrameForDirection`), a wall-clock animation ticker (`updateAnimation`,
`drawFrame`), and the game callbacks `Game.Update`, `Game.Draw` and
`Player.Move`.

The model is a state-passing translation.  The package-level variables and the
`Game` value live in one record, `World`; every function of the source is a
function on `World`.  What the source obtains from outside (the keyboard, the
clock) is an argument:

* `Input` is the keyboard state of one tick, as `ebiten.IsKeyPressed` and
  `inpututil.IsKeyJustPressed` report it;
* the two clock readings of `updateAnimation` (one inside `time.Since`, one by
  `time.Now`) are the arguments `t₁` and `t₂`, in nanoseconds.

Go's `int` is modelled as `Int` with every arithmetic operation wrapped to 64
bits (`wrapInt`), the width of `int` on the 64-bit targets the program is
written for.  Calls into libraries keep what the program hands them: an
`Image` remembers the rectangle `SubImage` was asked for, an `AudioPlayer`
remembers the methods called on it, the screen remembers its `DrawImage` calls
and the log its messages.

The `World` describes the program once `init` and the loading part of `main`
are through: the sprite sheet is loaded and both sound players exist (a failure
there is `log.Fatal`, the process ends before the game loop starts).
-/

namespace GameTemplate

/-! ## Go integers -/

/-- Smallest value of a 64-bit Go `int`. -/
def intMin : Int := -9223372036854775808

/-- Largest value of a 64-bit Go `int`. -/
def intMax : Int := 9223372036854775807

/-- The integers a Go `int` can hold. -/
def IsInt (z : Int) : Prop := intMin ≤ z ∧ z ≤ intMax

instance (z : Int) : Decidable (IsInt z) := by unfold IsInt; infer_instance

/-- Two's-complement wrap-around of a mathematical integer into the range of `int`. -/
def wrapInt (z : Int) : Int :=
  (z + 9223372036854775808) % 18446744073709551616 - 9223372036854775808

/-- Go's `a + b` on `int`. -/
def goAdd (a b : Int) : Int := wrapInt (a + b)

/-- Go's `a - b` on `int`. -/
def goSub (a b : Int) : Int := wrapInt (a - b)

/-- Go's `a * b` on `int`. -/
def goMul (a b : Int) : Int := wrapInt (a * b)

/-- Go's `a % b` on `int`: the remainder of the division truncated towards zero. -/
def goRem (a b : Int) : Int := Int.tmod a b

/-! ## Constants and package-level table -/

def frameWidth : Int := 128

def frameHeight : Int := 128

/-- Total number of frames in the animation. -/
def frameCount : Int := 4

/-- The constant `time.Millisecond`, in nanoseconds. -/
def Millisecond : Int := 1000000

/-- The variable `frameDuration = 200 * time.Millisecond`. -/
def frameDuration : Int := 200 * Millisecond

/-- The map literal `directionRows`, as its list of entries. -/
def directionRows : List (String × Int) :=
  [("up", 0), ("down", 131), ("left", 261), ("right", 390)]

/-! ## Library values: geometry, images, sound, keyboard, clock -/

/-- Go's `image.Point`. -/
structure Point where
  X : Int
  Y : Int
  deriving DecidableEq, Repr

/-- Go's `image.Rectangle`. -/
structure Rectangle where
  Min : Point
  Max : Point
  deriving DecidableEq, Repr

/-- Go's `image.Rect`: the rectangle with the given corners, each axis put in order. -/
def Rect (x0 y0 x1 y1 : Int) : Rectangle :=
  let (x0, x1) := if x0 > x1 then (x1, x0) else (x0, x1)
  let (y0, y1) := if y0 > y1 then (y1, y0) else (y0, y1)
  { Min := { X := x0, Y := y0 }, Max := { X := x1, Y := y1 } }

/-- Go's `Rectangle.Dx`: the width. -/
def Rectangle.Dx (r : Rectangle) : Int := goSub r.Max.X r.Min.X

/-- Go's `Rectangle.Dy`: the height. -/
def Rectangle.Dy (r : Rectangle) : Int := goSub r.Max.Y r.Min.Y

/-- An `*ebiten.Image` of the program: one loaded from a file, or one obtained
by `SubImage` from another, which keeps that image and the rectangle asked for. -/
inductive Image where
  | file (path : String)
  | sub (parent : Image) (r : Rectangle)
  deriving DecidableEq, Repr

/-- The call `i.SubImage(r).(*ebiten.Image)`. -/
def Image.SubImage (i : Image) (r : Rectangle) : Image := Image.sub i r

/-- The methods of `*audio.Player` the program calls. -/
inductive PlayerCall where
  | IsPlaying
  | Rewind
  | Play
  deriving DecidableEq, Repr

/-- An `*audio.Player`: whether it is playing, where in its stream it is, and
the methods called on it so far, oldest first. -/
structure AudioPlayer where
  playing : Bool
  position : Nat
  calls : List PlayerCall
  deriving DecidableEq, Repr

/-- The method `IsPlaying`: reports the playing flag. -/
def AudioPlayer.IsPlaying (a : AudioPlayer) : Bool × AudioPlayer :=
  (a.playing, { a with calls := a.calls ++ [PlayerCall.IsPlaying] })

/-- The method `Rewind`: back to the start of the stream. -/
def AudioPlayer.Rewind (a : AudioPlayer) : AudioPlayer :=
  { a with position := 0, calls := a.calls ++ [PlayerCall.Rewind] }

/-- The method `Play`: starts playing. -/
def AudioPlayer.Play (a : AudioPlayer) : AudioPlayer :=
  { a with playing := true, calls := a.calls ++ [PlayerCall.Play] }

/-- The map `soundPlayers` as `initAudio` leaves it: its two keys. -/
structure SoundPlayers where
  huh : AudioPlayer
  stop : AudioPlayer
  deriving DecidableEq, Repr

/-- The keys the program reads. -/
inductive Key where
  | KeyUp
  | KeyDown
  | KeyLeft
  | KeyRight
  | KeyQ
  | KeyF
  deriving DecidableEq, Repr

/-- The keyboard during one tick. -/
structure Input where
  IsKeyPressed : Key → Bool
  IsKeyJustPressed : Key → Bool

/-- The keyboard with exactly the keys of `ks` held, none of them newly. -/
def held (ks : List Key) : Input :=
  { IsKeyPressed := fun k => decide (k ∈ ks), IsKeyJustPressed := fun _ => false }

/-- Largest `time.Duration`. -/
def maxDuration : Int := 9223372036854775807

/-- Smallest `time.Duration`. -/
def minDuration : Int := -9223372036854775808

/-- Go's `Time.Sub` on clock readings in nanoseconds: the difference, saturated
to the range of `time.Duration`. -/
def timeSub (t u : Int) : Int :=
  if t - u > maxDuration then maxDuration
  else if t - u < minDuration then minDuration
  else t - u

/-- One `DrawImage` call on the screen: the image pointer handed over, and the
translation of the options (`none` for `nil` options).  The translation holds
the integers the program converts with `float64`. -/
structure DrawCall where
  image : Option Image
  options : Option Point
  deriving DecidableEq, Repr

/-! ## Program state -/

/-- The type `Player`. -/
structure Player where
  Coords : Point
  Sprite : Option Image
  deriving DecidableEq, Repr

/-- The type `Game`; `Player` is the player the pointer field refers to. -/
structure Game where
  Width : Int
  Height : Int
  Player : Player
  deriving DecidableEq, Repr

/-- The package-level variables, the game value `main` builds, and what the
program has done to the outside: the full-screen flag of the window, the
messages logged and the `DrawImage` calls made on the screen. -/
structure World where
  soundPlayers : SoundPlayers
  playerSprite : Image
  bgImage : Image
  spriteSheet : Image
  currentFrame : Int
  lastFrameChange : Int
  game : Game
  fullscreen : Bool
  log : List String
  screen : List DrawCall
  deriving DecidableEq, Repr

/-- The state in which `main` calls `ebiten.RunGame`, `t0` being the clock
reading `main` stores in `lastFrameChange`. -/
def initialWorld (t0 : Int) : World :=
  let playerSprite := Image.file "/Users/beckjonathan/projects/ebitengine-game-template/docker.png"
  { soundPlayers :=
      { huh := { playing := false, position := 0, calls := [] },
        stop := { playing := false, position := 0, calls := [] } },
    playerSprite := playerSprite,
    bgImage := Image.file "/Users/beckjonathan/projects/ebitengine-game-template/background.jpg",
    spriteSheet :=
      Image.file "/Users/beckjonathan/projects/ebitengine-game-template/spritesheet.png",
    currentFrame := 0,
    lastFrameChange := t0,
    game := { Width := 640, Height := 480,
              Player := { Coords := { X := 0, Y := 0 }, Sprite := some playerSprite } },
    fullscreen := false,
    log := [],
    screen := [] }

/-! ## The functions of `main.go` -/

/-- The function `getFrameForDirection`: the frame of the sprite sheet for a
direction, or `none` (Go's `nil`) with a log message for an unknown one. -/
def getFrameForDirection (direction : String) (w : World) : Option Image × World :=
  match directionRows.lookup direction with
  | none => (none, { w with log := w.log ++ ["Invalid direction: " ++ direction] })
  | some xPos =>
    let yPos : Int := 0
    let srcRect := Rect xPos yPos (goAdd xPos frameWidth) (goAdd yPos frameHeight)
    let frameImage := w.spriteSheet.SubImage srcRect
    (some frameImage, w)

/-- The function `updateAnimation`; `t₁` is the clock reading inside
`time.Since`, `t₂` the one `time.Now` returns afterwards. -/
def updateAnimation (t₁ t₂ : Int) (w : World) : World :=
  if timeSub t₁ w.lastFrameChange ≥ frameDuration then
    { w with
      currentFrame := goRem (goAdd w.currentFrame 1) frameCount,
      lastFrameChange := t₂ }
  else w

/-- The function `drawFrame`. -/
def drawFrame (w : World) : World :=
  let sx := goMul w.currentFrame frameWidth
  let sy : Int := 0
  let frameImage :=
    w.spriteSheet.SubImage (Rect sx sy (goAdd sx frameWidth) (goAdd sy frameHeight))
  { w with screen := w.screen ++ [DrawCall.mk (some frameImage) none] }

/-- The function `update`; the error it returns is always `nil`. -/
def update (t₁ t₂ : Int) (w : World) : Option String × World :=
  (none, drawFrame (updateAnimation t₁ t₂ w))

/-- The method `Player.Move` on the player of the game. -/
def Player.Move (i : Input) (w : World) : World :=
  let moveSpeed : Int := 5
  -- Up
  let w :=
    if i.IsKeyPressed Key.KeyUp then
      let audioPlayer := w.soundPlayers.huh
      let (isPlaying, audioPlayer) := audioPlayer.IsPlaying
      let audioPlayer := if !isPlaying then audioPlayer.Rewind.Play else audioPlayer
      let w := { w with soundPlayers := { w.soundPlayers with huh := audioPlayer } }
      let (frame, w) := getFrameForDirection "up" w
      let p := w.game.Player
      { w with game := { w.game with Player :=
          { Sprite := frame, Coords := { p.Coords with Y := goSub p.Coords.Y moveSpeed } } } }
    else w
  -- Down
  let w :=
    if i.IsKeyPressed Key.KeyDown then
      let audioPlayer := w.soundPlayers.stop
      let (isPlaying, audioPlayer) := audioPlayer.IsPlaying
      let audioPlayer := if !isPlaying then audioPlayer.Rewind.Play else audioPlayer
      let w := { w with soundPlayers := { w.soundPlayers with stop := audioPlayer } }
      let (frame, w) := getFrameForDirection "down" w
      let p := w.game.Player
      { w with game := { w.game with Player :=
          { Sprite := frame, Coords := { p.Coords with Y := goAdd p.Coords.Y moveSpeed } } } }
    else w
  -- Left
  let w :=
    if i.IsKeyPressed Key.KeyLeft then
      let (frame, w) := getFrameForDirection "left" w
      let p := w.game.Player
      { w with game := { w.game with Player :=
          { Sprite := frame, Coords := { p.Coords with X := goSub p.Coords.X moveSpeed } } } }
    else w
  -- Right
  let w :=
    if i.IsKeyPressed Key.KeyRight then
      let (frame, w) := getFrameForDirection "right" w
      let p := w.game.Player
      { w with game := { w.game with Player :=
          { Sprite := frame, Coords := { p.Coords with X := goAdd p.Coords.X moveSpeed } } } }
    else w
  w

/-- The method `Game.Update`: the error returned (`none` is `nil`) and the state. -/
def Game.Update (i : Input) (w : World) : Option String × World :=
  -- Pressing Q any time quits immediately
  if i.IsKeyPressed Key.KeyQ then
    (some "game quit by player", w)
  else
    -- Pressing F toggles full-screen
    let w :=
      if i.IsKeyJustPressed Key.KeyF then
        if w.fullscreen then { w with fullscreen := false }
        else { w with fullscreen := true }
      else w
    -- Movement controls
    let w := Player.Move i w
    (none, w)

/-- The method `Game.Draw`. -/
def Game.Draw (t₁ t₂ : Int) (w : World) : World :=
  let w : World :=
    { w with screen := w.screen ++ [DrawCall.mk (some w.bgImage) none] }
  let op : Point := { X := w.game.Player.Coords.X, Y := w.game.Player.Coords.Y }
  let w : World :=
    { w with screen := w.screen ++ [DrawCall.mk w.game.Player.Sprite (some op)] }
  let w := updateAnimation t₁ t₂ w
  drawFrame w

/-- The method `Game.Layout`. -/
def Game.Layout (_outsideWidth _outsideHeight : Int) (w : World) : Int × Int :=
  (w.game.Width, w.game.Height)

/-! ## Sequences of operations -/

/-- One operation of the program on its state. -/
inductive Op where
  | updateAnimation (t₁ t₂ : Int)
  | drawFrame
  | update (t₁ t₂ : Int)
  | gameUpdate (i : Input)
  | gameDraw (t₁ t₂ : Int)
  | playerMove (i : Input)

/-- The state after one operation. -/
def Op.run : Op → World → World
  | Op.updateAnimation t₁ t₂, w => GameTemplate.updateAnimation t₁ t₂ w
  | Op.drawFrame, w => GameTemplate.drawFrame w
  | Op.update t₁ t₂, w => (GameTemplate.update t₁ t₂ w).2
  | Op.gameUpdate i, w => (Game.Update i w).2
  | Op.gameDraw t₁ t₂, w => Game.Draw t₁ t₂ w
  | Op.playerMove i, w => Player.Move i w

/-- The state after a sequence of operations, run in order. -/
def runOps (ops : List Op) (w : World) : World :=
  ops.foldl (fun w op => op.run w) w

/-- The clock readings of an operation that runs `updateAnimation`. -/
def Op.clock : Op → Option (Int × Int)
  | Op.updateAnimation t₁ t₂ => some (t₁, t₂)
  | Op.drawFrame => none
  | Op.update t₁ t₂ => some (t₁, t₂)
  | Op.gameUpdate _ => none
  | Op.gameDraw t₁ t₂ => some (t₁, t₂)
  | Op.playerMove _ => none

/-- The animation state: the frame index and the time of the last frame change. -/
def World.anim (w : World) : Int × Int := (w.currentFrame, w.lastFrameChange)

/-- What `updateAnimation` does to the animation state, given its clock readings. -/
def animStep (s : Int × Int) (t : Int × Int) : Int × Int :=
  if timeSub t.1 s.2 ≥ frameDuration then (goRem (goAdd s.1 1) frameCount, t.2) else s

/-- The movement keys. -/
def movementKeys : List Key := [Key.KeyUp, Key.KeyDown, Key.KeyLeft, Key.KeyRight]

/-- Of the movement keys, exactly those of `ks` are pressed. -/
def Input.movement (i : Input) (ks : List Key) : Prop :=
  ∀ k ∈ movementKeys, i.IsKeyPressed k = decide (k ∈ ks)

instance (i : Input) (ks : List Key) : Decidable (i.movement ks) := by
  unfold Input.movement; infer_instance

/-- One if the key is pressed, zero if not. -/
def Input.count (i : Input) (k : Key) : Int := if i.IsKeyPressed k then 1 else 0

/-- The state after `n` consecutive calls of `Player.Move`, one per tick, under
the keyboard state `i`. -/
def moveTicks (i : Input) : Nat → World → World
  | 0, w => w
  | n + 1, w => moveTicks i n (Player.Move i w)

/-- The point lies outside the window `[0, 640) x [0, 480)` by more than `B`. -/
def Point.outsideBy (p : Point) (B : Int) : Prop :=
  p.X < 0 - B ∨ 640 + B < p.X ∨ p.Y < 0 - B ∨ 480 + B < p.Y

instance (p : Point) (B : Int) : Decidable (p.outsideBy B) := by
  unfold Point.outsideBy; infer_instance

/-- The point `d` pixels from `p` in the direction of a movement key, as a pair
of mathematical integers. -/
def Key.moved (k : Key) (p : Point) (d : Int) : Point :=
  match k with
  | Key.KeyUp => ⟨p.X, p.Y - d⟩
  | Key.KeyDown => ⟨p.X, p.Y + d⟩
  | Key.KeyLeft => ⟨p.X - d, p.Y⟩
  | Key.KeyRight => ⟨p.X + d, p.Y⟩
  | _ => p

/-- The coordinate of `p` on the axis of a movement key. -/
def Key.coordinate (k : Key) (p : Point) : Int :=
  match k with
  | Key.KeyUp => p.Y
  | Key.KeyDown => p.Y
  | _ => p.X

/-- Both coordinates wrapped to the range of `int`. -/
def Point.wrap (p : Point) : Point := ⟨wrapInt p.X, wrapInt p.Y⟩

/-- Both coordinates are in the range of `int`. -/
def Point.IsInt (p : Point) : Prop := GameTemplate.IsInt p.X ∧ GameTemplate.IsInt p.Y

instance (p : Point) : Decidable p.IsInt := by
  unfold Point.IsInt; infer_instance

/-- The keyboard of `i` with every key but `k` released. -/
def Input.only (i : Input) (k : Key) : Input :=
  { IsKeyPressed := fun m => decide (m = k) && i.IsKeyPressed k,
    IsKeyJustPressed := i.IsKeyJustPressed }

/-- The state `w` with the player at the position `p`. -/
def World.place (w : World) (p : Point) : World :=
  { w with game := { w.game with Player := { w.game.Player with Coords := p } } }

/-! ## Arithmetic lemmas -/

theorem wrapInt_of_isInt {z : Int} (h : IsInt z) : wrapInt z = z := by
  unfold IsInt intMin intMax at h
  unfold wrapInt
  omega

theorem isInt_wrapInt (z : Int) : IsInt (wrapInt z) := by
  unfold IsInt intMin intMax wrapInt
  omega

theorem frameDuration_le_timeSub (t u : Int) :
    frameDuration ≤ timeSub t u ↔ frameDuration ≤ t - u := by
  unfold timeSub frameDuration Millisecond maxDuration minDuration
  split_ifs <;> omega

/-- The next frame index, for a frame index that is not negative. -/
theorem nextFrame_of_nonneg {c : Int} (h0 : 0 ≤ c) (h1 : c ≤ intMax) :
    goRem (goAdd c 1) frameCount = (c + 1) % frameCount := by
  unfold frameCount intMax at *
  by_cases hc : c = 9223372036854775807
  · subst hc
    decide
  · have hw : goAdd c 1 = c + 1 := by
      unfold goAdd wrapInt
      omega
    rw [hw]
    exact Int.tmod_eq_emod (by omega) (by omega)

/-- The next frame index, for an index that is in range, is in range. -/
theorem nextFrame_of_index {c : Int} (h0 : 0 ≤ c) (h1 : c < frameCount) :
    0 ≤ goRem (goAdd c 1) frameCount ∧ goRem (goAdd c 1) frameCount < frameCount := by
  rw [nextFrame_of_nonneg h0 (by unfold frameCount at h1; unfold intMax; omega)]
  unfold frameCount at *
  omega

/-! ## The direction table -/

theorem lookup_up : directionRows.lookup "up" = some 0 := by decide

theorem lookup_down : directionRows.lookup "down" = some 131 := by decide

theorem lookup_left : directionRows.lookup "left" = some 261 := by decide

theorem lookup_right : directionRows.lookup "right" = some 390 := by decide

theorem lookup_eq_none_iff (d : String) :
    directionRows.lookup d = none ↔ d ∉ ["up", "down", "left", "right"] := by
  simp only [directionRows, List.lookup]
  by_cases h1 : d = "up"
  · subst h1; simp
  by_cases h2 : d = "down"
  · subst h2; simp
  by_cases h3 : d = "left"
  · subst h3; simp
  by_cases h4 : d = "right"
  · subst h4; simp
  have e1 : (d == "up") = false := by simpa using h1
  have e2 : (d == "down") = false := by simpa using h2
  have e3 : (d == "left") = false := by simpa using h3
  have e4 : (d == "right") = false := by simpa using h4
  simp [e1, e2, e3, e4, h1, h2, h3, h4]

theorem frame_up (w : World) : getFrameForDirection "up" w =
    (some (Image.sub w.spriteSheet ⟨⟨0, 0⟩, ⟨128, 128⟩⟩), w) := by
  simp only [getFrameForDirection, lookup_up]
  rfl

theorem frame_down (w : World) : getFrameForDirection "down" w =
    (some (Image.sub w.spriteSheet ⟨⟨131, 0⟩, ⟨259, 128⟩⟩), w) := by
  simp only [getFrameForDirection, lookup_down]
  rfl

theorem frame_left (w : World) : getFrameForDirection "left" w =
    (some (Image.sub w.spriteSheet ⟨⟨261, 0⟩, ⟨389, 128⟩⟩), w) := by
  simp only [getFrameForDirection, lookup_left]
  rfl

theorem frame_right (w : World) : getFrameForDirection "right" w =
    (some (Image.sub w.spriteSheet ⟨⟨390, 0⟩, ⟨518, 128⟩⟩), w) := by
  simp only [getFrameForDirection, lookup_right]
  rfl

/-! ## Frame selection -/

/-- C1: for each of the four direction labels, with `x` the entry listed for
it (0, 131, 261, 390), the table `directionRows` holds `x` for the label and `getFrameForDirection` returns the sub-image of the sprite sheet for
the rectangle with left edge `x`, top edge 0, right edge `x + 128` and bottom
edge 128, whose width and height are `frameWidth` and `frameHeight`; the state
is left as it was. -/
theorem getFrameForDirection_selects (w : World) (d : String) (x : Int)
    (h : (d, x) ∈ [("up", (0 : Int)), ("down", 131), ("left", 261), ("right", 390)]) :
    directionRows.lookup d = some x ∧
      getFrameForDirection d w =
        (some (w.spriteSheet.SubImage ⟨⟨x, 0⟩, ⟨x + 128, 128⟩⟩), w) ∧
      Rectangle.Dx ⟨⟨x, 0⟩, ⟨x + 128, 128⟩⟩ = frameWidth ∧
      Rectangle.Dy ⟨⟨x, 0⟩, ⟨x + 128, 128⟩⟩ = frameHeight := by
  simp only [List.mem_cons, Prod.mk.injEq, List.mem_singleton, List.not_mem_nil, or_false] at h
  rcases h with ⟨rfl, rfl⟩ | ⟨rfl, rfl⟩ | ⟨rfl, rfl⟩ | ⟨rfl, rfl⟩
  · exact ⟨lookup_up, frame_up w, by decide, by decide⟩
  · exact ⟨lookup_down, frame_down w, by decide, by decide⟩
  · exact ⟨lookup_left, frame_left w, by decide, by decide⟩
  · exact ⟨lookup_right, frame_right w, by decide, by decide⟩

theorem getFrameForDirection_selects_witness :
    (("left", (261 : Int)) ∈ [("up", (0 : Int)), ("down", 131), ("left", 261), ("right", 390)]) ∧
      getFrameForDirection "left" (initialWorld 0) =
        (some (Image.sub (initialWorld 0).spriteSheet ⟨⟨261, 0⟩, ⟨389, 128⟩⟩),
          initialWorld 0) :=
  ⟨by decide, (getFrameForDirection_selects (initialWorld 0) "left" 261 (by decide)).2.1⟩

/-- C2: the keys of `directionRows` are exactly "up", "down", "left" and
"right"; `getFrameForDirection` returns no image exactly for the labels that
are none of them; and for such a label it returns (it is a total function, its
result is `none`), the log has grown by the one message "Invalid direction: "
followed by the label, nothing else of the state has changed, and the same
holds whatever the sprite sheet is. -/
theorem getFrameForDirection_unknown (w : World) (d : String) :
    directionRows.map Prod.fst = ["up", "down", "left", "right"] ∧
      ((getFrameForDirection d w).1 = none ↔ d ∉ ["up", "down", "left", "right"]) ∧
      (d ∉ ["up", "down", "left", "right"] →
        getFrameForDirection d w =
            (none, { w with log := w.log ++ ["Invalid direction: " ++ d] }) ∧
          ∀ sheet : Image,
            getFrameForDirection d { w with spriteSheet := sheet } =
              (none, { w with spriteSheet := sheet,
                              log := w.log ++ ["Invalid direction: " ++ d] })) := by
  refine ⟨by decide, ?_, ?_⟩
  · rw [← lookup_eq_none_iff]
    unfold getFrameForDirection
    cases directionRows.lookup d <;> simp
  · intro h
    have hl := (lookup_eq_none_iff d).mpr h
    refine ⟨?_, fun sheet => ?_⟩ <;> simp only [getFrameForDirection, hl]

theorem getFrameForDirection_unknown_witness :
    "north" ∉ ["up", "down", "left", "right"] ∧
      getFrameForDirection "north" (initialWorld 0) =
        (none, { initialWorld 0 with log := ["Invalid direction: north"] }) :=
  ⟨by decide,
    ((getFrameForDirection_unknown (initialWorld 0) "north").2.2 (by decide)).1⟩

/-! ## The animation ticker -/

theorem updateAnimation_of_elapsed {t₁ t₂ : Int} {w : World}
    (h : frameDuration ≤ t₁ - w.lastFrameChange) :
    updateAnimation t₁ t₂ w =
      { w with currentFrame := goRem (goAdd w.currentFrame 1) frameCount,
               lastFrameChange := t₂ } := by
  unfold updateAnimation
  rw [if_pos ((frameDuration_le_timeSub _ _).mpr h)]

theorem updateAnimation_of_not_elapsed {t₁ t₂ : Int} {w : World}
    (h : t₁ - w.lastFrameChange < frameDuration) : updateAnimation t₁ t₂ w = w := by
  unfold updateAnimation
  rw [if_neg]
  intro hc
  have := (frameDuration_le_timeSub _ _).mp hc
  omega

/-- C3: from a state with `currentFrame = 0` and `lastFrameChange = 0`, calls
of `updateAnimation` at the clock times 0, 199 ms, 200 ms and 400 ms, in this
order, leave the frame index at 0, 0, 1 and 2.  In general a call at clock
time `t` (both clock readings are `t`) with `t - lastFrameChange` at least the
frame duration of 200 ms sets `currentFrame` to Go's
`(currentFrame + 1) % frameCount`, which is the mathematical
`(currentFrame + 1) mod 4` for every frame index that is not negative, and sets
`lastFrameChange` to `t`; a call with less time elapsed changes nothing. -/
theorem updateAnimation_advances (w : World) (t : Int) :
    (w.currentFrame = 0 → w.lastFrameChange = 0 →
      (updateAnimation 0 0 w).currentFrame = 0 ∧
      (updateAnimation (199 * Millisecond) (199 * Millisecond)
        (updateAnimation 0 0 w)).currentFrame = 0 ∧
      (updateAnimation (200 * Millisecond) (200 * Millisecond)
        (updateAnimation (199 * Millisecond) (199 * Millisecond)
          (updateAnimation 0 0 w))).currentFrame = 1 ∧
      (updateAnimation (400 * Millisecond) (400 * Millisecond)
        (updateAnimation (200 * Millisecond) (200 * Millisecond)
          (updateAnimation (199 * Millisecond) (199 * Millisecond)
            (updateAnimation 0 0 w)))).currentFrame = 2) ∧
    (frameDuration ≤ t - w.lastFrameChange →
      updateAnimation t t w =
          { w with currentFrame := goRem (goAdd w.currentFrame 1) frameCount,
                   lastFrameChange := t } ∧
        (0 ≤ w.currentFrame → w.currentFrame ≤ intMax →
          (updateAnimation t t w).currentFrame = (w.currentFrame + 1) % frameCount)) ∧
    (t - w.lastFrameChange < frameDuration → updateAnimation t t w = w) := by
  refine ⟨fun hc hl => ?_, fun h => ⟨updateAnimation_of_elapsed h, fun h0 h1 => ?_⟩,
    fun h => updateAnimation_of_not_elapsed h⟩
  · have e1 : updateAnimation 0 0 w = w :=
      updateAnimation_of_not_elapsed (by rw [hl]; decide)
    have e2 : updateAnimation (199 * Millisecond) (199 * Millisecond) w = w :=
      updateAnimation_of_not_elapsed (by rw [hl]; decide)
    have e3 := @updateAnimation_of_elapsed (200 * Millisecond) (200 * Millisecond) w
      (by rw [hl]; decide)
    have e4 := @updateAnimation_of_elapsed (400 * Millisecond) (400 * Millisecond)
      { w with currentFrame := goRem (goAdd w.currentFrame 1) frameCount,
               lastFrameChange := 200 * Millisecond }
      (by show frameDuration ≤ 400 * Millisecond - 200 * Millisecond; decide)
    rw [e1, e2, e3, e4]
    refine ⟨hc, hc, ?_, ?_⟩
    · show goRem (goAdd w.currentFrame 1) frameCount = 1
      rw [hc]; decide
    · show goRem (goAdd (goRem (goAdd w.currentFrame 1) frameCount) 1) frameCount = 2
      rw [hc]; decide
  · rw [updateAnimation_of_elapsed h]
    exact nextFrame_of_nonneg h0 h1

theorem updateAnimation_advances_witness :
    (initialWorld 0).currentFrame = 0 ∧ (initialWorld 0).lastFrameChange = 0 ∧
      (updateAnimation (400 * Millisecond) (400 * Millisecond)
        (updateAnimation (200 * Millisecond) (200 * Millisecond)
          (updateAnimation (199 * Millisecond) (199 * Millisecond)
            (updateAnimation 0 0 (initialWorld 0))))).currentFrame = 2 ∧
      frameDuration ≤ 200 * Millisecond - (initialWorld 0).lastFrameChange ∧
      (updateAnimation (200 * Millisecond) (200 * Millisecond) (initialWorld 0)).currentFrame
        = 1 ∧
      199 * Millisecond - (initialWorld 0).lastFrameChange < frameDuration ∧
      updateAnimation (199 * Millisecond) (199 * Millisecond) (initialWorld 0)
        = initialWorld 0 :=
  ⟨rfl, rfl,
    ((updateAnimation_advances (initialWorld 0) 0).1 rfl rfl).2.2.2,
    by decide,
    ((updateAnimation_advances (initialWorld 0) (200 * Millisecond)).2.1 (by decide)).2
      (by decide) (by decide),
    by decide,
    (updateAnimation_advances (initialWorld 0) (199 * Millisecond)).2.2 (by decide)⟩

/-! ## What `Player.Move` changes -/

/-- The position after `Player.Move`: each pressed key applies its step, Up
before Down and Left before Right. -/
theorem Move_coords (i : Input) (w : World) :
    (Player.Move i w).game.Player.Coords =
      { X := (if i.IsKeyPressed Key.KeyRight then (goAdd · 5) else id)
               ((if i.IsKeyPressed Key.KeyLeft then (goSub · 5) else id)
                 w.game.Player.Coords.X),
        Y := (if i.IsKeyPressed Key.KeyDown then (goAdd · 5) else id)
               ((if i.IsKeyPressed Key.KeyUp then (goSub · 5) else id)
                 w.game.Player.Coords.Y) } := by
  cases hU : i.IsKeyPressed Key.KeyUp <;> cases hD : i.IsKeyPressed Key.KeyDown <;>
    cases hL : i.IsKeyPressed Key.KeyLeft <;> cases hR : i.IsKeyPressed Key.KeyRight <;>
    simp [Player.Move, hU, hD, hL, hR, frame_up, frame_down, frame_left, frame_right]

/-- The sprite after `Player.Move`: the frame of the last pressed key in the
order Up, Down, Left, Right, and the old sprite when none is pressed. -/
theorem Move_sprite (i : Input) (w : World) :
    (Player.Move i w).game.Player.Sprite =
      if i.IsKeyPressed Key.KeyRight then
        some (Image.sub w.spriteSheet ⟨⟨390, 0⟩, ⟨518, 128⟩⟩)
      else if i.IsKeyPressed Key.KeyLeft then
        some (Image.sub w.spriteSheet ⟨⟨261, 0⟩, ⟨389, 128⟩⟩)
      else if i.IsKeyPressed Key.KeyDown then
        some (Image.sub w.spriteSheet ⟨⟨131, 0⟩, ⟨259, 128⟩⟩)
      else if i.IsKeyPressed Key.KeyUp then
        some (Image.sub w.spriteSheet ⟨⟨0, 0⟩, ⟨128, 128⟩⟩)
      else w.game.Player.Sprite := by
  cases hU : i.IsKeyPressed Key.KeyUp <;> cases hD : i.IsKeyPressed Key.KeyDown <;>
    cases hL : i.IsKeyPressed Key.KeyLeft <;> cases hR : i.IsKeyPressed Key.KeyRight <;>
    simp [Player.Move, hU, hD, hL, hR, frame_up, frame_down, frame_left, frame_right]

/-- The "huh" player after `Player.Move`. -/
theorem Move_huh (i : Input) (w : World) :
    (Player.Move i w).soundPlayers.huh =
      if i.IsKeyPressed Key.KeyUp then
        if w.soundPlayers.huh.playing then
          { w.soundPlayers.huh with
            calls := w.soundPlayers.huh.calls ++ [PlayerCall.IsPlaying] }
        else
          { playing := true, position := 0,
            calls := w.soundPlayers.huh.calls ++
              [PlayerCall.IsPlaying, PlayerCall.Rewind, PlayerCall.Play] }
      else w.soundPlayers.huh := by
  cases hU : i.IsKeyPressed Key.KeyUp <;> cases hD : i.IsKeyPressed Key.KeyDown <;>
    cases hL : i.IsKeyPressed Key.KeyLeft <;> cases hR : i.IsKeyPressed Key.KeyRight <;>
    cases hp : w.soundPlayers.huh.playing <;>
    simp [Player.Move, hU, hD, hL, hR, hp, frame_up, frame_down, frame_left, frame_right,
      AudioPlayer.IsPlaying, AudioPlayer.Rewind, AudioPlayer.Play]

/-- The "stop" player after `Player.Move`. -/
theorem Move_stop (i : Input) (w : World) :
    (Player.Move i w).soundPlayers.stop =
      if i.IsKeyPressed Key.KeyDown then
        if w.soundPlayers.stop.playing then
          { w.soundPlayers.stop with
            calls := w.soundPlayers.stop.calls ++ [PlayerCall.IsPlaying] }
        else
          { playing := true, position := 0,
            calls := w.soundPlayers.stop.calls ++
              [PlayerCall.IsPlaying, PlayerCall.Rewind, PlayerCall.Play] }
      else w.soundPlayers.stop := by
  cases hU : i.IsKeyPressed Key.KeyUp <;> cases hD : i.IsKeyPressed Key.KeyDown <;>
    cases hL : i.IsKeyPressed Key.KeyLeft <;> cases hR : i.IsKeyPressed Key.KeyRight <;>
    cases hp : w.soundPlayers.stop.playing <;>
    simp [Player.Move, hU, hD, hL, hR, hp, frame_up, frame_down, frame_left, frame_right,
      AudioPlayer.IsPlaying, AudioPlayer.Rewind, AudioPlayer.Play]

/-- Everything but the sound players and the player of the game is the same
after `Player.Move`. -/
theorem Move_frame (i : Input) (w : World) :
    Player.Move i w =
      { w with
        soundPlayers := (Player.Move i w).soundPlayers,
        game := { w.game with Player := (Player.Move i w).game.Player } } := by
  cases hU : i.IsKeyPressed Key.KeyUp <;> cases hD : i.IsKeyPressed Key.KeyDown <;>
    cases hL : i.IsKeyPressed Key.KeyLeft <;> cases hR : i.IsKeyPressed Key.KeyRight <;>
    simp [Player.Move, hU, hD, hL, hR, frame_up, frame_down, frame_left, frame_right]

theorem Move_anim (i : Input) (w : World) : (Player.Move i w).anim = w.anim := by
  rw [Move_frame]
  rfl

theorem Update_anim (i : Input) (w : World) : (Game.Update i w).2.anim = w.anim := by
  unfold Game.Update
  cases i.IsKeyPressed Key.KeyQ
  · cases i.IsKeyJustPressed Key.KeyF <;> cases w.fullscreen <;>
      simp only [Bool.false_eq_true, if_false, if_true, Move_anim] <;> rfl
  · rfl

theorem updateAnimation_anim (t₁ t₂ : Int) (w : World) :
    (updateAnimation t₁ t₂ w).anim = animStep w.anim (t₁, t₂) := by
  unfold updateAnimation animStep World.anim
  split_ifs <;> rfl

theorem drawFrame_anim (w : World) : (drawFrame w).anim = w.anim := rfl

theorem Draw_anim (t₁ t₂ : Int) (w : World) :
    (Game.Draw t₁ t₂ w).anim = animStep w.anim (t₁, t₂) := by
  unfold Game.Draw
  simp only [drawFrame_anim, updateAnimation_anim]
  rfl

/-- The animation state after an operation is that of `updateAnimation` at the
clock readings of the operation, and is unchanged when it has none. -/
theorem Op.run_anim (op : Op) (w : World) :
    (op.run w).anim =
      match op.clock with
      | some t => animStep w.anim t
      | none => w.anim := by
  cases op with
  | updateAnimation t₁ t₂ => exact updateAnimation_anim t₁ t₂ w
  | drawFrame => rfl
  | update t₁ t₂ =>
    show (GameTemplate.drawFrame (GameTemplate.updateAnimation t₁ t₂ w)).anim = _
    rw [drawFrame_anim, updateAnimation_anim]
    rfl
  | gameUpdate i => exact Update_anim i w
  | gameDraw t₁ t₂ => exact Draw_anim t₁ t₂ w
  | playerMove i => exact Move_anim i w

theorem runOps_anim (ops : List Op) (w : World) :
    (runOps ops w).anim = (ops.filterMap Op.clock).foldl animStep w.anim := by
  induction ops generalizing w with
  | nil => rfl
  | cons op ops ih =>
    show (runOps ops (op.run w)).anim = _
    rw [ih, Op.run_anim]
    cases h : op.clock <;> simp [List.filterMap_cons, h]

theorem animStep_index {s : Int × Int} (t : Int × Int)
    (h : 0 ≤ s.1 ∧ s.1 < frameCount) :
    0 ≤ (animStep s t).1 ∧ (animStep s t).1 < frameCount := by
  unfold animStep
  split_ifs
  · exact nextFrame_of_index h.1 h.2
  · exact h

theorem foldl_animStep_index (ts : List (Int × Int)) {s : Int × Int}
    (h : 0 ≤ s.1 ∧ s.1 < frameCount) :
    0 ≤ (ts.foldl animStep s).1 ∧ (ts.foldl animStep s).1 < frameCount := by
  induction ts generalizing s with
  | nil => exact h
  | cons t ts ih => exact ih (animStep_index t h)

/-! ## The frame index stays an index -/

/-- The rectangle `drawFrame` computes for a frame index that is in range. -/
theorem frameRect_of_index {c : Int} (h0 : 0 ≤ c) (h1 : c < frameCount) :
    Rect (goMul c frameWidth) 0 (goAdd (goMul c frameWidth) frameWidth) (goAdd 0 frameHeight)
      = ⟨⟨c * 128, 0⟩, ⟨c * 128 + 128, 128⟩⟩ := by
  unfold frameCount at h1
  have hc : c = 0 ∨ c = 1 ∨ c = 2 ∨ c = 3 := by omega
  rcases hc with rfl | rfl | rfl | rfl <;> decide

theorem drawFrame_of_index {w : World}
    (h : 0 ≤ w.currentFrame ∧ w.currentFrame < frameCount) :
    drawFrame w =
      { w with screen := w.screen ++
          [DrawCall.mk (some (Image.sub w.spriteSheet
            ⟨⟨w.currentFrame * 128, 0⟩, ⟨w.currentFrame * 128 + 128, 128⟩⟩)) none] } := by
  show { w with screen := w.screen ++
          [DrawCall.mk (some (Image.sub w.spriteSheet
            (Rect (goMul w.currentFrame frameWidth) 0
              (goAdd (goMul w.currentFrame frameWidth) frameWidth) (goAdd 0 frameHeight)))) none] }
        = _
  rw [frameRect_of_index h.1 h.2]

/-- C4: the frame index is 0 in the initial state; every operation of the
program (`updateAnimation` and `update` at any clock readings, `drawFrame`,
`Game.Update` and `Player.Move` under any keyboard state, `Game.Draw`) keeps
`0 ≤ currentFrame < frameCount`; hence in every state `v` the program reaches
from the initial one the frame index is in that range, `drawFrame` draws the
sub-image of the sprite sheet for the rectangle
`(currentFrame*128, 0, currentFrame*128+128, 128)`, and the left edge of that
rectangle is one of 0, 128, 256, 384. -/
theorem currentFrame_is_index (t0 : Int) (ops : List Op) (w : World) (op : Op) :
    (initialWorld t0).currentFrame = 0 ∧
    (0 ≤ w.currentFrame ∧ w.currentFrame < frameCount →
      0 ≤ (op.run w).currentFrame ∧ (op.run w).currentFrame < frameCount) ∧
    (let v := runOps ops (initialWorld t0)
     0 ≤ v.currentFrame ∧ v.currentFrame < frameCount ∧
     drawFrame v =
      { v with screen := v.screen ++
          [DrawCall.mk (some (v.spriteSheet.SubImage
            ⟨⟨v.currentFrame * 128, 0⟩, ⟨v.currentFrame * 128 + 128, 128⟩⟩)) none] } ∧
     v.currentFrame * 128 ∈ [(0 : Int), 128, 256, 384]) := by
  refine ⟨rfl, fun h => ?_, ?_⟩
  · have e : (op.run w).currentFrame = (op.run w).anim.1 := rfl
    rw [e, Op.run_anim]
    cases op.clock with
    | none => exact h
    | some t => exact animStep_index t h
  · intro v
    have hv : 0 ≤ v.currentFrame ∧ v.currentFrame < frameCount := by
      have e : v.currentFrame = (runOps ops (initialWorld t0)).anim.1 := rfl
      rw [e, runOps_anim]
      exact foldl_animStep_index _
        (show (0 : Int) ≤ 0 ∧ (0 : Int) < frameCount by decide)
    refine ⟨hv.1, hv.2, drawFrame_of_index hv, ?_⟩
    have h4 := hv.2
    unfold frameCount at h4
    have hc : v.currentFrame = 0 ∨ v.currentFrame = 1 ∨ v.currentFrame = 2 ∨
        v.currentFrame = 3 := by omega
    rcases hc with h | h | h | h <;> rw [h] <;> decide

theorem currentFrame_is_index_witness :
    (0 ≤ (initialWorld 0).currentFrame ∧ (initialWorld 0).currentFrame < frameCount) ∧
      (0 ≤ ((Op.gameDraw (200 * Millisecond) (200 * Millisecond)).run
              (initialWorld 0)).currentFrame ∧
        ((Op.gameDraw (200 * Millisecond) (200 * Millisecond)).run
              (initialWorld 0)).currentFrame < frameCount) :=
  ⟨by decide,
    (currentFrame_is_index 0 [] (initialWorld 0)
      (Op.gameDraw (200 * Millisecond) (200 * Millisecond))).2.1 (by decide)⟩

/-! ## Movement -/

theorem movement_pressed {i : Input} {ks : List Key} (h : i.movement ks) :
    i.IsKeyPressed Key.KeyUp = decide (Key.KeyUp ∈ ks) ∧
      i.IsKeyPressed Key.KeyDown = decide (Key.KeyDown ∈ ks) ∧
      i.IsKeyPressed Key.KeyLeft = decide (Key.KeyLeft ∈ ks) ∧
      i.IsKeyPressed Key.KeyRight = decide (Key.KeyRight ∈ ks) :=
  ⟨h _ (by decide), h _ (by decide), h _ (by decide), h _ (by decide)⟩

/-- The position after `Player.Move` with only the key `k` of the movement keys
pressed. -/
theorem Move_coords_single {i : Input} {k : Key} (h : i.movement [k]) (w : World) :
    (Player.Move i w).game.Player.Coords =
      match k with
      | Key.KeyUp => ⟨w.game.Player.Coords.X, goSub w.game.Player.Coords.Y 5⟩
      | Key.KeyDown => ⟨w.game.Player.Coords.X, goAdd w.game.Player.Coords.Y 5⟩
      | Key.KeyLeft => ⟨goSub w.game.Player.Coords.X 5, w.game.Player.Coords.Y⟩
      | Key.KeyRight => ⟨goAdd w.game.Player.Coords.X 5, w.game.Player.Coords.Y⟩
      | _ => w.game.Player.Coords := by
  obtain ⟨hU, hD, hL, hR⟩ := movement_pressed h
  rw [Move_coords, hU, hD, hL, hR]
  cases k <;> rfl

/-- The position after `n` ticks with only the movement key `k` held, from a
position of Go integers: `5 * n` further along the axis of `k`, wrapped to `int`. -/
theorem moveTicks_coords {i : Input} {k : Key} (h : i.movement [k]) (n : Nat) (w : World)
    (hx : IsInt w.game.Player.Coords.X) (hy : IsInt w.game.Player.Coords.Y) :
    (moveTicks i n w).game.Player.Coords =
      match k with
      | Key.KeyUp => ⟨w.game.Player.Coords.X, wrapInt (w.game.Player.Coords.Y - 5 * n)⟩
      | Key.KeyDown => ⟨w.game.Player.Coords.X, wrapInt (w.game.Player.Coords.Y + 5 * n)⟩
      | Key.KeyLeft => ⟨wrapInt (w.game.Player.Coords.X - 5 * n), w.game.Player.Coords.Y⟩
      | Key.KeyRight => ⟨wrapInt (w.game.Player.Coords.X + 5 * n), w.game.Player.Coords.Y⟩
      | _ => w.game.Player.Coords := by
  induction n generalizing w with
  | zero =>
    show w.game.Player.Coords = _
    cases k <;>
      simp only [Nat.cast_zero, mul_zero, add_zero, sub_zero, wrapInt_of_isInt hx,
        wrapInt_of_isInt hy]
  | succ n ih =>
    show (moveTicks i n (Player.Move i w)).game.Player.Coords = _
    have e := Move_coords_single h w
    have hx1 : IsInt (Player.Move i w).game.Player.Coords.X := by
      rw [e]; cases k <;> first | exact hx | exact isInt_wrapInt _
    have hy1 : IsInt (Player.Move i w).game.Player.Coords.Y := by
      rw [e]; cases k <;> first | exact hy | exact isInt_wrapInt _
    rw [ih (Player.Move i w) hx1 hy1, e]
    cases k <;>
      simp only [goAdd, goSub, Nat.cast_add, Nat.cast_one, Point.mk.injEq, true_and,
        and_true] <;>
      first
      | rfl
      | (unfold wrapInt; omega)

theorem moveTicks_coords_wrap {i : Input} {k : Key} (h : i.movement [k]) (n : Nat)
    (w : World) (hp : w.game.Player.Coords.IsInt) :
    (moveTicks i n w).game.Player.Coords = (k.moved w.game.Player.Coords (5 * n)).wrap := by
  rw [moveTicks_coords h n w hp.1 hp.2]
  cases k <;>
    simp only [Key.moved, Point.wrap, wrapInt_of_isInt hp.1, wrapInt_of_isInt hp.2]

/-- The steps of single keys, for a coordinate that is a Go integer: five
less, or five more, with `2^64` added or taken off when that leaves the range
of `int`. -/
theorem goSub_goAdd_five {z : Int} (hz : IsInt z) :
    goSub z 5 = (if intMin ≤ z - 5 then z - 5 else z - 5 + 18446744073709551616) ∧
      goAdd z 5 = (if z + 5 ≤ intMax then z + 5 else z + 5 - 18446744073709551616) := by
  unfold IsInt at hz
  unfold intMin intMax at *
  unfold goSub goAdd wrapInt
  constructor <;> split_ifs <;> omega

/-- C5, as the code has it: one call of `Player.Move` with exactly one movement
key pressed leaves the other coordinate untouched and moves the coordinate of
the key by 5 in the arithmetic of the 64-bit `int`.  From a position `(x, y)`
of Go integers Up gives `(x, y - 5)`, Down `(x, y + 5)`, Left `(x - 5, y)` and
Right `(x + 5, y)` whenever the moved coordinate is in the range of `int`; when
it is not, the moved coordinate is that value with `2^64` added (Up, Left) or
taken off (Down, Right).  With no movement key pressed the position and the
sprite are unchanged. -/
theorem Move_single_key (i : Input) (w : World) :
    (i.movement [Key.KeyUp] →
      (Player.Move i w).game.Player.Coords =
          ⟨w.game.Player.Coords.X, goSub w.game.Player.Coords.Y 5⟩ ∧
        (IsInt w.game.Player.Coords.Y →
          (Player.Move i w).game.Player.Coords =
            ⟨w.game.Player.Coords.X,
              if intMin ≤ w.game.Player.Coords.Y - 5 then w.game.Player.Coords.Y - 5
              else w.game.Player.Coords.Y - 5 + 18446744073709551616⟩) ∧
        (IsInt (w.game.Player.Coords.Y - 5) →
          (Player.Move i w).game.Player.Coords =
            ⟨w.game.Player.Coords.X, w.game.Player.Coords.Y - 5⟩)) ∧
    (i.movement [Key.KeyDown] →
      (Player.Move i w).game.Player.Coords =
          ⟨w.game.Player.Coords.X, goAdd w.game.Player.Coords.Y 5⟩ ∧
        (IsInt w.game.Player.Coords.Y →
          (Player.Move i w).game.Player.Coords =
            ⟨w.game.Player.Coords.X,
              if w.game.Player.Coords.Y + 5 ≤ intMax then w.game.Player.Coords.Y + 5
              else w.game.Player.Coords.Y + 5 - 18446744073709551616⟩) ∧
        (IsInt (w.game.Player.Coords.Y + 5) →
          (Player.Move i w).game.Player.Coords =
            ⟨w.game.Player.Coords.X, w.game.Player.Coords.Y + 5⟩)) ∧
    (i.movement [Key.KeyLeft] →
      (Player.Move i w).game.Player.Coords =
          ⟨goSub w.game.Player.Coords.X 5, w.game.Player.Coords.Y⟩ ∧
        (IsInt w.game.Player.Coords.X →
          (Player.Move i w).game.Player.Coords =
            ⟨if intMin ≤ w.game.Player.Coords.X - 5 then w.game.Player.Coords.X - 5
              else w.game.Player.Coords.X - 5 + 18446744073709551616,
              w.game.Player.Coords.Y⟩) ∧
        (IsInt (w.game.Player.Coords.X - 5) →
          (Player.Move i w).game.Player.Coords =
            ⟨w.game.Player.Coords.X - 5, w.game.Player.Coords.Y⟩)) ∧
    (i.movement [Key.KeyRight] →
      (Player.Move i w).game.Player.Coords =
          ⟨goAdd w.game.Player.Coords.X 5, w.game.Player.Coords.Y⟩ ∧
        (IsInt w.game.Player.Coords.X →
          (Player.Move i w).game.Player.Coords =
            ⟨if w.game.Player.Coords.X + 5 ≤ intMax then w.game.Player.Coords.X + 5
              else w.game.Player.Coords.X + 5 - 18446744073709551616,
              w.game.Player.Coords.Y⟩) ∧
        (IsInt (w.game.Player.Coords.X + 5) →
          (Player.Move i w).game.Player.Coords =
            ⟨w.game.Player.Coords.X + 5, w.game.Player.Coords.Y⟩)) ∧
    (i.movement [] →
      (Player.Move i w).game.Player.Coords = w.game.Player.Coords ∧
        (Player.Move i w).game.Player.Sprite = w.game.Player.Sprite) := by
  refine ⟨fun h => ?_, fun h => ?_, fun h => ?_, fun h => ?_, fun h => ?_⟩
  · have e := Move_coords_single h w
    exact ⟨e, fun hz => by rw [e, (goSub_goAdd_five hz).1],
      fun hr => by rw [e]; simp only [goSub, wrapInt_of_isInt hr]⟩
  · have e := Move_coords_single h w
    exact ⟨e, fun hz => by rw [e, (goSub_goAdd_five hz).2],
      fun hr => by rw [e]; simp only [goAdd, wrapInt_of_isInt hr]⟩
  · have e := Move_coords_single h w
    exact ⟨e, fun hz => by rw [e, (goSub_goAdd_five hz).1],
      fun hr => by rw [e]; simp only [goSub, wrapInt_of_isInt hr]⟩
  · have e := Move_coords_single h w
    exact ⟨e, fun hz => by rw [e, (goSub_goAdd_five hz).2],
      fun hr => by rw [e]; simp only [goAdd, wrapInt_of_isInt hr]⟩
  · obtain ⟨hU, hD, hL, hR⟩ := movement_pressed h
    constructor
    · rw [Move_coords, hU, hD, hL, hR]
      rfl
    · rw [Move_sprite, hU, hD, hL, hR]
      rfl

theorem Move_single_key_witness :
    (held [Key.KeyUp]).movement [Key.KeyUp] ∧
      IsInt (initialWorld 0).game.Player.Coords.Y ∧
      IsInt ((initialWorld 0).game.Player.Coords.Y - 5) ∧
      (Player.Move (held [Key.KeyUp]) (initialWorld 0)).game.Player.Coords = ⟨0, -5⟩ ∧
      (held [Key.KeyRight]).movement [Key.KeyRight] ∧
      IsInt ((initialWorld 0).place ⟨9223372036854775805, 0⟩).game.Player.Coords.X ∧
      (Player.Move (held [Key.KeyRight])
          ((initialWorld 0).place ⟨9223372036854775805, 0⟩)).game.Player.Coords =
        ⟨9223372036854775805 + 5 - 18446744073709551616, 0⟩ ∧
      (held [Key.KeyQ]).movement [] ∧
      (Player.Move (held [Key.KeyQ]) (initialWorld 0)).game.Player.Sprite
        = some (initialWorld 0).playerSprite :=
  ⟨by decide, by decide, by decide,
    ((Move_single_key (held [Key.KeyUp]) (initialWorld 0)).1 (by decide)).2.2 (by decide),
    by decide, by decide,
    ((Move_single_key (held [Key.KeyRight])
      ((initialWorld 0).place ⟨9223372036854775805, 0⟩)).2.2.2.1 (by decide)).2.1 (by decide),
    by decide,
    ((Move_single_key (held [Key.KeyQ]) (initialWorld 0)).2.2.2.2 (by decide)).2⟩

/-- Counterexample to C5 as stated: with only Right held the player reaches
`(2^63 - 3, 0)` from the initial position after 1844674407370955161 ticks, and
one call of `Player.Move` from that position, with only Right pressed, gives
`(-2^63 + 2, 0)`, which is not `(x + 5, y)`. -/
theorem Move_single_key_counterexample :
    (moveTicks (held [Key.KeyRight]) 1844674407370955161
        (initialWorld 0)).game.Player.Coords = ⟨9223372036854775805, 0⟩ ∧
      (held [Key.KeyRight]).movement [Key.KeyRight] ∧
      (Player.Move (held [Key.KeyRight])
          ((initialWorld 0).place ⟨9223372036854775805, 0⟩)).game.Player.Coords =
        ⟨-9223372036854775806, 0⟩ ∧
      (Player.Move (held [Key.KeyRight])
          ((initialWorld 0).place ⟨9223372036854775805, 0⟩)).game.Player.Coords ≠
        ⟨9223372036854775805 + 5, 0⟩ := by
  have h : (held [Key.KeyRight]).movement [Key.KeyRight] := by decide
  refine ⟨?_, h, ?_, ?_⟩
  · rw [moveTicks_coords_wrap h _ _ (by decide)]
    decide
  · rw [Move_coords]; decide
  · rw [Move_coords]; decide

/-- `Player.Move` is the run of its four blocks: the call under a keyboard state
is the call for Up alone, then Down alone, then Left alone, then Right alone,
each with the key as the keyboard state has it. -/
theorem Move_blocks (i : Input) (w : World) :
    Player.Move i w =
      Player.Move (i.only Key.KeyRight)
        (Player.Move (i.only Key.KeyLeft)
          (Player.Move (i.only Key.KeyDown)
            (Player.Move (i.only Key.KeyUp) w))) := by
  cases hU : i.IsKeyPressed Key.KeyUp <;> cases hD : i.IsKeyPressed Key.KeyDown <;>
    cases hL : i.IsKeyPressed Key.KeyLeft <;> cases hR : i.IsKeyPressed Key.KeyRight <;>
    simp [Player.Move, Input.only, hU, hD, hL, hR, frame_up, frame_down, frame_left,
      frame_right]

/-- C6, as the code has it: the four key checks of `Player.Move` are
independent.  For every keyboard state the call is the run of the block of
every pressed key, in the order Up, Down, Left, Right, no key excluding
another; the position after it is obtained by applying the step of every
pressed key with the arithmetic of the 64-bit `int`.  From a position `(x, y)`
of Go integers that is `(x + 5*[Right] - 5*[Left], y + 5*[Down] - 5*[Up])`
whenever this pair is in the range of `int`, and the pair wrapped to that range
when it is not.  With Up and Down both held both blocks run: each of the two
sound players is asked `IsPlaying` (and rewound and played when idle), the
sprite is the frame of Down unless Left or Right is held too, and `y` is as
before; with Left and Right both held both steps are applied, the sprite is the
frame of Right and `x` is as before; with Up and Left held the position is
`(x - 5, y - 5)` (in range). -/
theorem Move_all_keys (i : Input) (w : World) :
    Player.Move i w =
      Player.Move (i.only Key.KeyRight)
        (Player.Move (i.only Key.KeyLeft)
          (Player.Move (i.only Key.KeyDown)
            (Player.Move (i.only Key.KeyUp) w))) ∧
    (Player.Move i w).game.Player.Coords =
      { X := (if i.IsKeyPressed Key.KeyRight then (goAdd · 5) else id)
               ((if i.IsKeyPressed Key.KeyLeft then (goSub · 5) else id)
                 w.game.Player.Coords.X),
        Y := (if i.IsKeyPressed Key.KeyDown then (goAdd · 5) else id)
               ((if i.IsKeyPressed Key.KeyUp then (goSub · 5) else id)
                 w.game.Player.Coords.Y) } ∧
    (IsInt w.game.Player.Coords.X → IsInt w.game.Player.Coords.Y →
      (Player.Move i w).game.Player.Coords =
          ⟨wrapInt (w.game.Player.Coords.X
              + 5 * i.count Key.KeyRight - 5 * i.count Key.KeyLeft),
            wrapInt (w.game.Player.Coords.Y
              + 5 * i.count Key.KeyDown - 5 * i.count Key.KeyUp)⟩ ∧
        (IsInt (w.game.Player.Coords.X
              + 5 * i.count Key.KeyRight - 5 * i.count Key.KeyLeft) →
          IsInt (w.game.Player.Coords.Y
              + 5 * i.count Key.KeyDown - 5 * i.count Key.KeyUp) →
          (Player.Move i w).game.Player.Coords =
            ⟨w.game.Player.Coords.X + 5 * i.count Key.KeyRight - 5 * i.count Key.KeyLeft,
              w.game.Player.Coords.Y + 5 * i.count Key.KeyDown - 5 * i.count Key.KeyUp⟩) ∧
        (i.IsKeyPressed Key.KeyUp = true → i.IsKeyPressed Key.KeyDown = true →
          (Player.Move i w).game.Player.Coords.Y
              = goAdd (goSub w.game.Player.Coords.Y 5) 5 ∧
            (Player.Move i w).game.Player.Coords.Y = w.game.Player.Coords.Y) ∧
        (i.IsKeyPressed Key.KeyLeft = true → i.IsKeyPressed Key.KeyRight = true →
          (Player.Move i w).game.Player.Coords.X
              = goAdd (goSub w.game.Player.Coords.X 5) 5 ∧
            (Player.Move i w).game.Player.Coords.X = w.game.Player.Coords.X) ∧
        (i.movement [Key.KeyUp, Key.KeyLeft] →
          IsInt (w.game.Player.Coords.X - 5) → IsInt (w.game.Player.Coords.Y - 5) →
          (Player.Move i w).game.Player.Coords =
            ⟨w.game.Player.Coords.X - 5, w.game.Player.Coords.Y - 5⟩)) ∧
    (i.IsKeyPressed Key.KeyUp = true → i.IsKeyPressed Key.KeyDown = true →
      (Player.Move i w).soundPlayers.huh.calls =
          w.soundPlayers.huh.calls ++
            (if w.soundPlayers.huh.playing then [PlayerCall.IsPlaying]
             else [PlayerCall.IsPlaying, PlayerCall.Rewind, PlayerCall.Play]) ∧
        (Player.Move i w).soundPlayers.stop.calls =
          w.soundPlayers.stop.calls ++
            (if w.soundPlayers.stop.playing then [PlayerCall.IsPlaying]
             else [PlayerCall.IsPlaying, PlayerCall.Rewind, PlayerCall.Play]) ∧
        (i.IsKeyPressed Key.KeyLeft = false → i.IsKeyPressed Key.KeyRight = false →
          (Player.Move i w).game.Player.Sprite =
            some (w.spriteSheet.SubImage ⟨⟨131, 0⟩, ⟨259, 128⟩⟩))) ∧
    (i.IsKeyPressed Key.KeyLeft = true → i.IsKeyPressed Key.KeyRight = true →
      (Player.Move i w).game.Player.Sprite =
        some (w.spriteSheet.SubImage ⟨⟨390, 0⟩, ⟨518, 128⟩⟩)) := by
  refine ⟨Move_blocks i w, Move_coords i w, fun hx hy => ?_, fun hU hD => ?_,
    fun hL hR => ?_⟩
  · have hwrap : (Player.Move i w).game.Player.Coords =
        ⟨wrapInt (w.game.Player.Coords.X
            + 5 * i.count Key.KeyRight - 5 * i.count Key.KeyLeft),
          wrapInt (w.game.Player.Coords.Y
            + 5 * i.count Key.KeyDown - 5 * i.count Key.KeyUp)⟩ := by
      rw [Move_coords]
      unfold IsInt intMin intMax at hx hy
      unfold Input.count
      cases i.IsKeyPressed Key.KeyUp <;> cases i.IsKeyPressed Key.KeyDown <;>
        cases i.IsKeyPressed Key.KeyLeft <;> cases i.IsKeyPressed Key.KeyRight <;>
        simp only [Bool.false_eq_true, if_false, if_true, id, goAdd, goSub, wrapInt,
          Point.mk.injEq] <;>
        constructor <;> omega
    refine ⟨hwrap, fun h1 h2 => ?_, fun hU hD => ?_, fun hL hR => ?_, fun h h1 h2 => ?_⟩
    · rw [hwrap, wrapInt_of_isInt h1, wrapInt_of_isInt h2]
    · rw [Move_coords, hU, hD]
      refine ⟨rfl, ?_⟩
      unfold IsInt intMin intMax at hy
      simp only [if_true, goAdd, goSub, wrapInt]
      omega
    · rw [Move_coords, hL, hR]
      refine ⟨rfl, ?_⟩
      unfold IsInt intMin intMax at hx
      simp only [if_true, goAdd, goSub, wrapInt]
      omega
    · obtain ⟨hU, hD, hL, hR⟩ := movement_pressed h
      rw [Move_coords, hU, hD, hL, hR]
      show (⟨goSub w.game.Player.Coords.X 5, goSub w.game.Player.Coords.Y 5⟩ : Point) = _
      simp only [goSub, wrapInt_of_isInt h1, wrapInt_of_isInt h2]
  · refine ⟨?_, ?_, fun hL hR => ?_⟩
    · rw [Move_huh, hU]
      cases w.soundPlayers.huh.playing <;> rfl
    · rw [Move_stop, hD]
      cases w.soundPlayers.stop.playing <;> rfl
    · rw [Move_sprite, hR, hL, hD]
      rfl
  · rw [Move_sprite, hR]
    rfl

theorem Move_all_keys_witness :
    IsInt (initialWorld 0).game.Player.Coords.X ∧
      IsInt (initialWorld 0).game.Player.Coords.Y ∧
      (held [Key.KeyUp, Key.KeyDown]).IsKeyPressed Key.KeyUp = true ∧
      (held [Key.KeyUp, Key.KeyDown]).IsKeyPressed Key.KeyDown = true ∧
      (held [Key.KeyUp, Key.KeyDown]).IsKeyPressed Key.KeyLeft = false ∧
      (held [Key.KeyUp, Key.KeyDown]).IsKeyPressed Key.KeyRight = false ∧
      ((Player.Move (held [Key.KeyUp, Key.KeyDown]) (initialWorld 0)).game.Player.Coords.Y
          = goAdd (goSub 0 5) 5 ∧
        (Player.Move (held [Key.KeyUp, Key.KeyDown]) (initialWorld 0)).game.Player.Coords.Y
          = 0) ∧
      ((Player.Move (held [Key.KeyUp, Key.KeyDown]) (initialWorld 0)).soundPlayers.huh.calls
          = [PlayerCall.IsPlaying, PlayerCall.Rewind, PlayerCall.Play] ∧
        (Player.Move (held [Key.KeyUp, Key.KeyDown]) (initialWorld 0)).soundPlayers.stop.calls
          = [PlayerCall.IsPlaying, PlayerCall.Rewind, PlayerCall.Play]) ∧
      (Player.Move (held [Key.KeyUp, Key.KeyDown]) (initialWorld 0)).game.Player.Sprite =
        some (Image.sub (initialWorld 0).spriteSheet ⟨⟨131, 0⟩, ⟨259, 128⟩⟩) ∧
      (held [Key.KeyUp, Key.KeyLeft]).movement [Key.KeyUp, Key.KeyLeft] ∧
      IsInt ((initialWorld 0).game.Player.Coords.X - 5) ∧
      IsInt ((initialWorld 0).game.Player.Coords.Y - 5) ∧
      (Player.Move (held [Key.KeyUp, Key.KeyLeft]) (initialWorld 0)).game.Player.Coords =
        ⟨-5, -5⟩ :=
  ⟨by decide, by decide, by decide, by decide, by decide, by decide,
    ((Move_all_keys (held [Key.KeyUp, Key.KeyDown]) (initialWorld 0)).2.2.1
      (by decide) (by decide)).2.2.1 (by decide) (by decide),
    ⟨((Move_all_keys (held [Key.KeyUp, Key.KeyDown]) (initialWorld 0)).2.2.2.1
        (by decide) (by decide)).1,
      ((Move_all_keys (held [Key.KeyUp, Key.KeyDown]) (initialWorld 0)).2.2.2.1
        (by decide) (by decide)).2.1⟩,
    ((Move_all_keys (held [Key.KeyUp, Key.KeyDown]) (initialWorld 0)).2.2.2.1
      (by decide) (by decide)).2.2 (by decide) (by decide),
    by decide, by decide, by decide,
    ((Move_all_keys (held [Key.KeyUp, Key.KeyLeft]) (initialWorld 0)).2.2.1
      (by decide) (by decide)).2.2.2.2 (by decide) (by decide) (by decide)⟩

/-- Counterexample to C6 as stated: from the position `(2^63 - 3, 0)`, which the
player reaches after 1844674407370955161 ticks with only Right held, one call
of `Player.Move` with Up and Right pressed gives `(-2^63 + 2, -5)`, which is not
`(x + 5*[Right] - 5*[Left], y + 5*[Down] - 5*[Up]) = (2^63 + 2, -5)`. -/
theorem Move_all_keys_counterexample :
    (moveTicks (held [Key.KeyRight]) 1844674407370955161
        (initialWorld 0)).game.Player.Coords = ⟨9223372036854775805, 0⟩ ∧
    (Player.Move (held [Key.KeyUp, Key.KeyRight])
        ((initialWorld 0).place ⟨9223372036854775805, 0⟩)).game.Player.Coords =
      ⟨-9223372036854775806, -5⟩ ∧
    (Player.Move (held [Key.KeyUp, Key.KeyRight])
        ((initialWorld 0).place ⟨9223372036854775805, 0⟩)).game.Player.Coords ≠
      ⟨9223372036854775805 + 5 * (held [Key.KeyUp, Key.KeyRight]).count Key.KeyRight
          - 5 * (held [Key.KeyUp, Key.KeyRight]).count Key.KeyLeft,
        0 + 5 * (held [Key.KeyUp, Key.KeyRight]).count Key.KeyDown
          - 5 * (held [Key.KeyUp, Key.KeyRight]).count Key.KeyUp⟩ := by
  refine ⟨?_, ?_, ?_⟩
  · rw [moveTicks_coords_wrap (show (held [Key.KeyRight]).movement [Key.KeyRight] by decide)
      _ _ (by decide)]
    decide
  · rw [Move_coords]; decide
  · rw [Move_coords]; decide

/-! ## Sound -/

/-- C7: in `Player.Move`, when Up (resp. Down) is pressed and the "huh" (resp.
"stop") player reports that it is playing, the only method called on it is
`IsPlaying`: neither `Rewind` nor `Play`, and its playing flag and position are
as before.  When it reports that it is not playing, the calls on it are
`IsPlaying`, then one `Rewind`, then one `Play`.  A player whose key is not
pressed is untouched; so Left and Right touch no sound player. -/
theorem Move_sound (i : Input) (w : World) :
    (i.IsKeyPressed Key.KeyUp = true → w.soundPlayers.huh.playing = true →
      (Player.Move i w).soundPlayers.huh =
        { w.soundPlayers.huh with
          calls := w.soundPlayers.huh.calls ++ [PlayerCall.IsPlaying] }) ∧
    (i.IsKeyPressed Key.KeyUp = true → w.soundPlayers.huh.playing = false →
      (Player.Move i w).soundPlayers.huh.calls =
        w.soundPlayers.huh.calls ++
          [PlayerCall.IsPlaying, PlayerCall.Rewind, PlayerCall.Play]) ∧
    (i.IsKeyPressed Key.KeyDown = true → w.soundPlayers.stop.playing = true →
      (Player.Move i w).soundPlayers.stop =
        { w.soundPlayers.stop with
          calls := w.soundPlayers.stop.calls ++ [PlayerCall.IsPlaying] }) ∧
    (i.IsKeyPressed Key.KeyDown = true → w.soundPlayers.stop.playing = false →
      (Player.Move i w).soundPlayers.stop.calls =
        w.soundPlayers.stop.calls ++
          [PlayerCall.IsPlaying, PlayerCall.Rewind, PlayerCall.Play]) ∧
    (i.IsKeyPressed Key.KeyUp = false →
      (Player.Move i w).soundPlayers.huh = w.soundPlayers.huh) ∧
    (i.IsKeyPressed Key.KeyDown = false →
      (Player.Move i w).soundPlayers.stop = w.soundPlayers.stop) ∧
    (i.IsKeyPressed Key.KeyUp = false → i.IsKeyPressed Key.KeyDown = false →
      (Player.Move i w).soundPlayers = w.soundPlayers) := by
  refine ⟨fun h hp => ?_, fun h hp => ?_, fun h hp => ?_, fun h hp => ?_, fun h => ?_,
    fun h => ?_, fun hU hD => ?_⟩
  · rw [Move_huh, h, hp]; rfl
  · rw [Move_huh, h, hp]; rfl
  · rw [Move_stop, h, hp]; rfl
  · rw [Move_stop, h, hp]; rfl
  · rw [Move_huh, h]; rfl
  · rw [Move_stop, h]; rfl
  · have e1 : (Player.Move i w).soundPlayers.huh = w.soundPlayers.huh := by
      rw [Move_huh, hU]; rfl
    have e2 : (Player.Move i w).soundPlayers.stop = w.soundPlayers.stop := by
      rw [Move_stop, hD]; rfl
    calc (Player.Move i w).soundPlayers
        = ⟨(Player.Move i w).soundPlayers.huh, (Player.Move i w).soundPlayers.stop⟩ := rfl
      _ = ⟨w.soundPlayers.huh, w.soundPlayers.stop⟩ := by rw [e1, e2]

theorem Move_sound_witness :
    (held [Key.KeyUp]).IsKeyPressed Key.KeyUp = true ∧
      (initialWorld 0).soundPlayers.huh.playing = false ∧
      (Player.Move (held [Key.KeyUp]) (initialWorld 0)).soundPlayers.huh.calls =
        [PlayerCall.IsPlaying, PlayerCall.Rewind, PlayerCall.Play] ∧
      (Player.Move (held [Key.KeyUp]) (initialWorld 0)).soundPlayers.huh.playing = true ∧
      (Player.Move (held [Key.KeyUp])
          (Player.Move (held [Key.KeyUp]) (initialWorld 0))).soundPlayers.huh =
        { playing := true, position := 0,
          calls := [PlayerCall.IsPlaying, PlayerCall.Rewind, PlayerCall.Play,
                    PlayerCall.IsPlaying] } ∧
      (held [Key.KeyLeft, Key.KeyRight]).IsKeyPressed Key.KeyUp = false ∧
      (held [Key.KeyLeft, Key.KeyRight]).IsKeyPressed Key.KeyDown = false ∧
      (Player.Move (held [Key.KeyLeft, Key.KeyRight]) (initialWorld 0)).soundPlayers =
        (initialWorld 0).soundPlayers :=
  ⟨by decide, by decide,
    (Move_sound (held [Key.KeyUp]) (initialWorld 0)).2.1 (by decide) (by decide),
    by decide,
    (Move_sound (held [Key.KeyUp]) (Player.Move (held [Key.KeyUp]) (initialWorld 0))).1
      (by decide) (by decide),
    by decide, by decide,
    (Move_sound (held [Key.KeyLeft, Key.KeyRight]) (initialWorld 0)).2.2.2.2.2.2
      (by decide) (by decide)⟩

/-! ## Quitting -/

/-- C8: in every state and whatever other keys are held, `Game.Update` with Q
pressed returns the error "game quit by player" and the state it was called
in, all of it: position, sprite, full-screen flag and sound players are as
before.  With Q not pressed it returns no error. -/
theorem Update_quit (i : Input) (w : World) :
    (i.IsKeyPressed Key.KeyQ = true →
      Game.Update i w = (some "game quit by player", w)) ∧
    (i.IsKeyPressed Key.KeyQ = false → (Game.Update i w).1 = none) := by
  constructor
  · intro h
    unfold Game.Update
    rw [if_pos h]
  · intro h
    unfold Game.Update
    rw [h]
    rfl

theorem Update_quit_witness :
    (held [Key.KeyQ, Key.KeyUp, Key.KeyLeft]).IsKeyPressed Key.KeyQ = true ∧
      Game.Update (held [Key.KeyQ, Key.KeyUp, Key.KeyLeft]) (initialWorld 0) =
        (some "game quit by player", initialWorld 0) ∧
      (held [Key.KeyUp]).IsKeyPressed Key.KeyQ = false ∧
      (Game.Update (held [Key.KeyUp]) (initialWorld 0)).1 = none :=
  ⟨by decide,
    (Update_quit (held [Key.KeyQ, Key.KeyUp, Key.KeyLeft]) (initialWorld 0)).1 (by decide),
    by decide,
    (Update_quit (held [Key.KeyUp]) (initialWorld 0)).2 (by decide)⟩

/-! ## Animation and player are independent -/

theorem updateAnimation_game (t₁ t₂ : Int) (w : World) :
    (updateAnimation t₁ t₂ w).game = w.game := by
  unfold updateAnimation
  split_ifs <;> rfl

/-- C9: `Player.Move`, under any keyboard state, changes neither `currentFrame`
nor `lastFrameChange`; `updateAnimation`, at any clock readings, changes neither
the position nor the sprite of the player; and after any two sequences of
operations in which `updateAnimation` runs at the same clock readings, started
in states with the same animation state, the frame index is the same, whatever
the keys held in the one and in the other. -/
theorem animation_independent (i : Input) (t₁ t₂ : Int) (w v : World)
    (ops ops₂ : List Op) :
    ((Player.Move i w).currentFrame = w.currentFrame ∧
      (Player.Move i w).lastFrameChange = w.lastFrameChange) ∧
    ((updateAnimation t₁ t₂ w).game.Player.Coords = w.game.Player.Coords ∧
      (updateAnimation t₁ t₂ w).game.Player.Sprite = w.game.Player.Sprite) ∧
    (w.currentFrame = v.currentFrame → w.lastFrameChange = v.lastFrameChange →
      ops.filterMap Op.clock = ops₂.filterMap Op.clock →
      (runOps ops w).currentFrame = (runOps ops₂ v).currentFrame ∧
        (runOps ops w).lastFrameChange = (runOps ops₂ v).lastFrameChange) := by
  refine ⟨?_, ?_, fun hc hl ht => ?_⟩
  · have h := Move_anim i w
    exact ⟨congrArg Prod.fst h, congrArg Prod.snd h⟩
  · rw [updateAnimation_game]
    exact ⟨rfl, rfl⟩
  · have h : (runOps ops w).anim = (runOps ops₂ v).anim := by
      rw [runOps_anim, runOps_anim, ht]
      unfold World.anim
      rw [hc, hl]
    exact ⟨congrArg Prod.fst h, congrArg Prod.snd h⟩

theorem animation_independent_witness :
    (initialWorld 0).currentFrame = (initialWorld 0).currentFrame ∧
      [Op.gameUpdate (held [Key.KeyUp]), Op.gameDraw (200 * Millisecond) (200 * Millisecond)
        ].filterMap Op.clock =
        [Op.gameUpdate (held [Key.KeyLeft, Key.KeyDown]),
          Op.gameDraw (200 * Millisecond) (200 * Millisecond),
          Op.playerMove (held [Key.KeyRight])].filterMap Op.clock ∧
      (runOps [Op.gameUpdate (held [Key.KeyUp]),
          Op.gameDraw (200 * Millisecond) (200 * Millisecond)] (initialWorld 0)).currentFrame
        = (runOps [Op.gameUpdate (held [Key.KeyLeft, Key.KeyDown]),
            Op.gameDraw (200 * Millisecond) (200 * Millisecond),
            Op.playerMove (held [Key.KeyRight])] (initialWorld 0)).currentFrame :=
  ⟨rfl, rfl,
    ((animation_independent (held []) 0 0 (initialWorld 0) (initialWorld 0)
      [Op.gameUpdate (held [Key.KeyUp]), Op.gameDraw (200 * Millisecond) (200 * Millisecond)]
      [Op.gameUpdate (held [Key.KeyLeft, Key.KeyDown]),
        Op.gameDraw (200 * Millisecond) (200 * Millisecond),
        Op.playerMove (held [Key.KeyRight])]).2.2 rfl rfl rfl).1⟩

/-! ## No clamping, but a bounded integer type -/

/-- Every Go integer is `v = x + 5 * m` wrapped, and `v = x - 5 * m` wrapped, for
some numbers of steps `m`: 5 is invertible modulo `2^64`. -/
theorem wrapInt_steps_reach (x v : Int) (hv : IsInt v) :
    (∃ m : Nat, wrapInt (x + 5 * m) = v) ∧ (∃ m : Nat, wrapInt (x - 5 * m) = v) := by
  unfold IsInt intMin intMax at hv
  constructor
  · refine ⟨(((v - x) * 14757395258967641293) % 18446744073709551616).toNat, ?_⟩
    rw [Int.toNat_of_nonneg (Int.emod_nonneg _ (by decide))]
    unfold wrapInt
    omega
  · refine ⟨(((x - v) * 14757395258967641293) % 18446744073709551616).toNat, ?_⟩
    rw [Int.toNat_of_nonneg (Int.emod_nonneg _ (by decide))]
    unfold wrapInt
    omega

theorem not_outsideBy_of_isInt {p : Point} (hp : p.IsInt) {B : Int}
    (hB : 9223372036854775808 ≤ B) : ¬ p.outsideBy B := by
  unfold Point.IsInt IsInt intMin intMax at hp
  unfold Point.outsideBy
  omega

/-- C10, as the code has it: `Player.Move` does not clamp against the 640x480
window, and its arithmetic is that of the 64-bit `int`.  After `n` consecutive
ticks with only the movement key `k` held, from a position `(x, y)` of Go
integers, the position is `(x, y)` moved by `5 * n` along the axis of `k` and
wrapped to the range of `int` (only Left held: `X = x - 5*n` wrapped); it is
exactly the moved point while that is in the range of `int`.  The coordinate
on the axis of `k` takes every value of `int` after some number of ticks; so
for every bound `B` with `640 + B < 2^63 - 1` there is a number of ticks after
which the position lies outside the window by more than `B`. -/
theorem Move_unclamped (i : Input) (k : Key) (w : World) (n : Nat) (B : Int)
    (hk : k ∈ movementKeys) (h : i.movement [k]) (hp : w.game.Player.Coords.IsInt) :
    (moveTicks i n w).game.Player.Coords = (k.moved w.game.Player.Coords (5 * n)).wrap ∧
    ((k.moved w.game.Player.Coords (5 * n)).IsInt →
      (moveTicks i n w).game.Player.Coords = k.moved w.game.Player.Coords (5 * n)) ∧
    (∀ v : Int, IsInt v → ∃ m : Nat, k.coordinate (moveTicks i m w).game.Player.Coords = v) ∧
    (640 + B < intMax → ∃ m : Nat, (moveTicks i m w).game.Player.Coords.outsideBy B) := by
  have key : ∀ v : Int, IsInt v →
      ∃ m : Nat, k.coordinate (moveTicks i m w).game.Player.Coords = v := by
    intro v hv
    obtain ⟨⟨a, ha⟩, ⟨b, hb⟩⟩ := wrapInt_steps_reach w.game.Player.Coords.X v hv
    obtain ⟨⟨c, hc⟩, ⟨d, hd⟩⟩ := wrapInt_steps_reach w.game.Player.Coords.Y v hv
    simp only [movementKeys, List.mem_cons, List.mem_singleton, List.not_mem_nil,
      or_false] at hk
    rcases hk with rfl | rfl | rfl | rfl
    · exact ⟨d, by rw [moveTicks_coords_wrap h d w hp]; exact hd⟩
    · exact ⟨c, by rw [moveTicks_coords_wrap h c w hp]; exact hc⟩
    · exact ⟨b, by rw [moveTicks_coords_wrap h b w hp]; exact hb⟩
    · exact ⟨a, by rw [moveTicks_coords_wrap h a w hp]; exact ha⟩
  refine ⟨moveTicks_coords_wrap h n w hp, fun hr => ?_, key, fun hB => ?_⟩
  · rw [moveTicks_coords_wrap h n w hp]
    unfold Point.wrap
    rw [wrapInt_of_isInt hr.1, wrapInt_of_isInt hr.2]
  · simp only [movementKeys, List.mem_cons, List.mem_singleton, List.not_mem_nil,
      or_false] at hk
    unfold intMax at hB
    rcases hk with rfl | rfl | rfl | rfl
    · obtain ⟨m, hm⟩ := key intMin (by decide)
      refine ⟨m, Or.inr (Or.inr (Or.inl ?_))⟩
      simp only [Key.coordinate] at hm
      rw [hm]; unfold intMin; omega
    · obtain ⟨m, hm⟩ := key intMax (by decide)
      refine ⟨m, Or.inr (Or.inr (Or.inr ?_))⟩
      simp only [Key.coordinate] at hm
      rw [hm]; unfold intMax; omega
    · obtain ⟨m, hm⟩ := key intMin (by decide)
      refine ⟨m, Or.inl ?_⟩
      simp only [Key.coordinate] at hm
      rw [hm]; unfold intMin; omega
    · obtain ⟨m, hm⟩ := key intMax (by decide)
      refine ⟨m, Or.inr (Or.inl ?_)⟩
      simp only [Key.coordinate] at hm
      rw [hm]; unfold intMax; omega

theorem Move_unclamped_witness :
    Key.KeyLeft ∈ movementKeys ∧ (held [Key.KeyLeft]).movement [Key.KeyLeft] ∧
      (initialWorld 0).game.Player.Coords.IsInt ∧
      (Key.KeyLeft.moved (initialWorld 0).game.Player.Coords (5 * (3 : Nat))).IsInt ∧
      (moveTicks (held [Key.KeyLeft]) 3 (initialWorld 0)).game.Player.Coords = ⟨-15, 0⟩ ∧
      640 + 1000 < intMax ∧
      (∃ m : Nat,
        (moveTicks (held [Key.KeyLeft]) m (initialWorld 0)).game.Player.Coords.outsideBy
          1000) :=
  ⟨by decide, by decide, by decide, by decide,
    (Move_unclamped (held [Key.KeyLeft]) Key.KeyLeft (initialWorld 0) 3 1000
      (by decide) (by decide) (by decide)).2.1 (by decide),
    by decide,
    (Move_unclamped (held [Key.KeyLeft]) Key.KeyLeft (initialWorld 0) 3 1000
      (by decide) (by decide) (by decide)).2.2.2 (by decide)⟩

/-- Counterexample to C10 as stated, on the 64-bit `int`: with only Right held
from the initial position `(0, 0)`, after `2^64` ticks the player is back at
`(0, 0)`, not at `x = 5 * 2^64`; and for the bound `B = 2^63` no number of ticks
brings the position outside the window by more than `B`. -/
theorem Move_unclamped_counterexample :
    (moveTicks (held [Key.KeyRight]) 18446744073709551616
        (initialWorld 0)).game.Player.Coords = ⟨0, 0⟩ ∧
      ¬ ∃ n : Nat,
        (moveTicks (held [Key.KeyRight]) n
          (initialWorld 0)).game.Player.Coords.outsideBy 9223372036854775808 := by
  have h : (held [Key.KeyRight]).movement [Key.KeyRight] := by decide
  have hp : (initialWorld 0).game.Player.Coords.IsInt := by decide
  constructor
  · rw [moveTicks_coords_wrap h _ _ hp]
    decide
  · rintro ⟨n, hn⟩
    rw [moveTicks_coords_wrap h n _ hp] at hn
    exact not_outsideBy_of_isInt ⟨isInt_wrapInt _, isInt_wrapInt _⟩ (le_refl _) hn

end GameTemplate
